import Mathlib

/-!
Verification of the Embedded-ControlHub peer firmware against its
natural-language specification.

The development shallowly embeds the two I2C slave peers:

* the Arduino actuator node (`Executor.ino`): command handler
  (`handleCommand`), receive callback (`onI2CReceive`), request callback
  (`execFrame`, modelling `onI2CRequest`), and the button edge detector
  (`handleButton`);
* the ESP32 sensor hub (`SensorsWeb.ino`): the sensor task body
  (`sensorTaskIter`) and the I2C request callback (`sensorLine`,
  `sensorResp`, `sensorFrame`, modelling `onI2CRequest`).

C strings are embedded as `List Char` (the bytes before the terminating
NUL).  C `int` / `long` values are embedded as `Int`, and `unsigned long`
as `Nat`; unsigned 32-bit wraparound subtraction is modelled explicitly
(`usub32`).  IEEE floats are embedded as `CFloat`: either NaN or an exact
rational value; `%.1f` formatting is modelled on that abstraction
(`fmt1`).
-/

namespace ControlHub

/-! ### Decimal printing (model of `snprintf` `%d`) and `atoi` -/

/-- Decimal digits of `n`, least significant first, using explicit fuel
(`fuel ≥ n` suffices); empty for `n = 0`. -/
def toDigitsRev (fuel n : Nat) : List Nat :=
  match fuel with
  | 0 => []
  | fuel + 1 => if n = 0 then [] else n % 10 :: toDigitsRev fuel (n / 10)

/-- Decimal digit characters of a natural number, most significant first:
the model of `%u`-style rendering of a nonnegative value. -/
def natChars (n : Nat) : List Char :=
  if n = 0 then ['0'] else ((toDigitsRev n n).reverse.map Nat.digitChar)

/-- Decimal rendering of an integer: the model of `snprintf`'s `%d`. -/
def intRepr (n : Int) : List Char :=
  if n < 0 then '-' :: natChars n.natAbs else natChars n.toNat

/-- The digit-accumulation loop of C's `atoi`: consume leading decimal
digits, accumulating `acc * 10 + digit`; stop at the first non-digit. -/
def digitsAcc : List Char → Nat → Nat
  | [], acc => acc
  | c :: rest, acc =>
    if c.isDigit then digitsAcc rest (acc * 10 + (c.toNat - 48)) else acc

/-- C's `isspace` on the characters `atoi` skips. -/
def isSpaceChar (c : Char) : Bool :=
  c == ' ' || c == '\t' || c == '\n' || c == '\x0B' || c == '\x0C' || c == '\r'

/-- Model of C's `atoi` on the embedded string: skip leading whitespace,
read an optional sign, then accumulate decimal digits.  Overflow of the
machine `int` is undefined behaviour in C and is not modelled: the result
is the exact integer value of the digit string. -/
def atoi (l : List Char) : Int :=
  let l1 := l.dropWhile isSpaceChar
  if l1.head? = some '-' then -(digitsAcc l1.tail 0 : Int)
  else if l1.head? = some '+' then (digitsAcc l1.tail 0 : Int)
  else (digitsAcc l1 0 : Int)

/-! ### Actuator node (`Executor.ino`) -/

/-- Arduino's `constrain(amt, low, high)` macro:
`((amt)<(low)?(low):((amt)>(high)?(high):(amt)))`. -/
def constrain (amt low high : Int) : Int :=
  if amt < low then low else if amt > high then high else amt

/-- The actuator's global mutable state: `servoPos`, `stepperPos`,
`relayState`, `btnEvent` and the response C-string `i2cResp` (its bytes
before the terminating NUL). -/
structure ExecState where
  servoPos   : Int
  stepperPos : Int
  relayState : Bool
  btnEvent   : Bool
  i2cResp    : List Char
  deriving DecidableEq, Repr

/-- Initial values of the actuator globals:
`int servoPos = 90; int stepperPos = 0; bool relayState = false;
bool btnEvent = false; char i2cResp[I2C_BUF] = "READY";`. -/
def initState : ExecState :=
  { servoPos := 90, stepperPos := 0, relayState := false,
    btnEvent := false, i2cResp := "READY".toList }

/-- The `STATUS` reply before `snprintf` truncation:
`"SERVO=%d RELAY=%s STEPPER=%d"` applied to the current state. -/
def statusLine (s : ExecState) : List Char :=
  "SERVO=".toList ++ intRepr s.servoPos
    ++ " RELAY=".toList ++ (if s.relayState then "ON".toList else "OFF".toList)
    ++ " STEPPER=".toList ++ intRepr s.stepperPos

/-- `handleCommand` of `Executor.ino`: dispatch on the received command
string `cmd` (the current contents of `i2cCmd`).  `strncmp(cmd, lit, n)`
with `n = |lit|` is embedded as `cmd.take n = lit`; `snprintf` into the
32-byte `i2cResp` truncates its output to 31 characters.  The hardware
writes (`servo.write`, `stepper.step`, `digitalWrite`) and the transient
`"STEPPER BUSY"` value of `i2cResp` inside the `STEPPER MOVE` branch are
not observable in the final state and are elided. -/
def handleCommand (cmd : List Char) (s : ExecState) : ExecState :=
  if cmd.take 9 = "SERVO SET".toList then
    { s with servoPos := constrain (atoi (cmd.drop 10)) 0 180,
             i2cResp := "OK SERVO".toList }
  else if cmd.take 12 = "STEPPER MOVE".toList then
    { s with stepperPos := s.stepperPos + atoi (cmd.drop 13),
             i2cResp := "OK STEPPER".toList }
  else if cmd = "RELAY ON".toList then
    { s with relayState := true, i2cResp := "OK RELAY ON".toList }
  else if cmd = "RELAY OFF".toList then
    { s with relayState := false, i2cResp := "OK RELAY OFF".toList }
  else if cmd = "STATUS".toList then
    { s with i2cResp := (statusLine s).take 31 }
  else
    { s with i2cResp := "ERR CMD".toList }

/-- `onI2CRequest` of `Executor.ino`: copy `i2cResp` into `tmpResp`
(`strncpy` with bound 31 plus a forced NUL), append the button marker via
`strncat(tmpResp, " +BTN PRESSED", I2C_BUF - strlen(tmpResp) - 1)` when
`btnEvent` is set — clearing the flag — and transmit
`strlen(tmpResp) + 1` bytes.  Returns the transmitted payload (string
bytes plus the trailing NUL) and the updated state. -/
def execFrame (s : ExecState) : List Char × ExecState :=
  let tmp := s.i2cResp.take 31
  if s.btnEvent then
    let tmp2 := tmp ++ " +BTN PRESSED".toList.take (32 - tmp.length - 1)
    (tmp2 ++ [Char.ofNat 0], { s with btnEvent := false })
  else
    (tmp ++ [Char.ofNat 0], s)

/-- `handleButton` of `Executor.ino`: falling-edge detector.  The static
`lastState` and the sampled `currentState` (`HIGH = true`, `LOW = false`)
are passed and returned explicitly. -/
def handleButton (s : ExecState) (lastState currentState : Bool) :
    ExecState × Bool :=
  (if lastState = true ∧ currentState = false
     then { s with btnEvent := true } else s,
   currentState)

/-- One full button press seen by `handleButton`: the falling edge
(`lastState = HIGH`, `currentState = LOW`); its effect on the state. -/
def pressCycle (s : ExecState) : ExecState :=
  (handleButton s true false).1

/-- The byte-storing loop of `onI2CReceive`:
`while (Wire.available() && i < I2C_BUF - 1) i2cCmd[i++] = Wire.read();`
over the incoming byte list, starting at index `i`. -/
def recvAux : List Char → Nat → List Char
  | [], _ => []
  | c :: rest, i => if i < 31 then c :: recvAux rest (i + 1) else []

/-- `onI2CReceive` of `Executor.ino`: returns the bytes stored into
`i2cCmd` and the index at which the terminating NUL is written. -/
def onI2CReceive (input : List Char) : List Char × Nat :=
  let stored := recvAux input 0
  (stored, stored.length)

/-! ### Sensor hub (`SensorsWeb.ino`) -/

/-- Embedding of a C `float` value: NaN (as produced by a failed DHT
read) or an exact rational value.  Finite IEEE floats are exact
rationals; infinities and signed zero are not distinguished. -/
inductive CFloat where
  | nan : CFloat
  | val : ℚ → CFloat
  deriving DecidableEq, Repr

/-- C's `isnan` on the embedded float. -/
def CFloat.isNaN : CFloat → Bool
  | .nan => true
  | .val _ => false

/-- Model of `printf`-style `%.1f` on the embedded float: round to one
decimal digit and print sign, integer part, dot, fractional digit.
(The sign of a negative value rounding to zero is not reproduced.) -/
def fmt1 : CFloat → List Char
  | .nan => "nan".toList
  | .val q =>
    let n : Int := round (q * 10)
    (if n < 0 then ['-'] else [])
      ++ natChars (n.natAbs / 10) ++ '.' :: natChars (n.natAbs % 10)

/-- The shared sensor structure `SensorData` of `SensorsWeb.ino`:
temperature, humidity, light level, and the `millis()` timestamp of the
last clap event. -/
structure SensorData where
  temp       : CFloat
  hum        : CFloat
  photo      : Int
  lastClapMs : Nat
  deriving DecidableEq, Repr

/-- One iteration of `SensorTask`: given fresh readings `h` (humidity),
`t` (temperature) and `p` (photoresistor), update the shared data only
when both DHT readings are non-NaN. -/
def sensorTaskIter (s : SensorData) (h t : CFloat) (p : Int) : SensorData :=
  if h.isNaN = false ∧ t.isNaN = false then
    { s with temp := t, hum := h, photo := p }
  else s

/-- C unsigned 32-bit subtraction `a - b` (both operands reduced mod
`2 ^ 32`, as `unsigned long` values are). -/
def usub32 (a b : Nat) : Nat :=
  (a % 2 ^ 32 + (2 ^ 32 - b % 2 ^ 32)) % 2 ^ 32

/-- The `clapSec` computation of the sensor hub's `onI2CRequest`:
`int clapSec = -1; if (data.lastClapMs > 0) { clapSec =
(now - data.lastClapMs) / 1000; if (clapSec >= 1000) clapSec = -1; }`. -/
def clapSecOf (now lastClapMs : Nat) : Int :=
  if 0 < lastClapMs then
    let c : Nat := usub32 now lastClapMs / 1000
    if 1000 ≤ c then -1 else (c : Int)
  else -1

/-- The sensor hub's reply before `snprintf` truncation:
`"T=%.1f H=%.1f P=%d C=%d"` applied to the shared data at time `now`. -/
def sensorLine (d : SensorData) (now : Nat) : List Char :=
  "T=".toList ++ fmt1 d.temp ++ " H=".toList ++ fmt1 d.hum
    ++ " P=".toList ++ intRepr d.photo
    ++ " C=".toList ++ intRepr (clapSecOf now d.lastClapMs)

/-- The C-string left in `i2cResp` by the sensor hub's `onI2CRequest`
(`snprintf` into the 32-byte buffer keeps at most 31 characters). -/
def sensorResp (d : SensorData) (now : Nat) : List Char :=
  (sensorLine d now).take 31

/-- The 32-byte packet transmitted by the sensor hub's `onI2CRequest`:
the buffer is `memset` to zero, the reply written into it, and
`Wire.write((const uint8_t*)i2cResp, I2C_BUF)` sends all 32 bytes. -/
def sensorFrame (d : SensorData) (now : Nat) : List Char :=
  sensorResp d now
    ++ List.replicate (32 - (sensorResp d now).length) (Char.ofNat 0)

/-- Substring test on embedded C strings, used to state the event-marker
delivery properties: does `pat` occur contiguously inside `l`? -/
def containsSub (pat : List Char) : List Char → Bool
  | [] => pat.isPrefixOf []
  | c :: rest => pat.isPrefixOf (c :: rest) || containsSub pat rest

/-! ### Lemmas about decimal printing and parsing -/

theorem toDigitsRev_lt (fuel n : Nat) : ∀ d ∈ toDigitsRev fuel n, d < 10 := by
  induction fuel generalizing n with
  | zero => intro d hd; simp [toDigitsRev] at hd
  | succ fuel ih =>
    intro d hd
    by_cases h : n = 0
    · simp [toDigitsRev, h] at hd
    · simp [toDigitsRev, h] at hd
      rcases hd with h1 | h2
      · omega
      · exact ih _ d h2

theorem foldl_toDigitsRev (fuel : Nat) :
    ∀ n acc, n ≤ fuel →
      ((toDigitsRev fuel n).reverse.foldl (fun a d => a * 10 + d) acc)
        = acc * 10 ^ (toDigitsRev fuel n).length + n := by
  induction fuel with
  | zero =>
    intro n acc hn
    have : n = 0 := Nat.le_zero.mp hn
    simp [toDigitsRev, this]
  | succ fuel ih =>
    intro n acc hn
    by_cases h : n = 0
    · simp [toDigitsRev, h]
    · have hdiv : n / 10 ≤ fuel := by
        have : n / 10 < n := Nat.div_lt_self (Nat.pos_of_ne_zero h) (by omega)
        omega
      have := ih (n / 10) acc hdiv
      simp only [toDigitsRev, h, if_false]
      rw [List.reverse_cons, List.foldl_append, this]
      simp only [List.foldl_cons, List.foldl_nil, List.length_cons]
      have hmod : 10 * (n / 10) + n % 10 = n := Nat.div_add_mod n 10
      ring_nf
      omega

theorem digitsAcc_map (L : List Nat) :
    ∀ acc, (∀ d ∈ L, d < 10) →
      digitsAcc (L.map Nat.digitChar) acc = L.foldl (fun a d => a * 10 + d) acc := by
  induction L with
  | nil => intro acc _; simp [digitsAcc]
  | cons d T ih =>
    intro acc hL
    have hd : d < 10 := hL d (by simp)
    have hdig : (Nat.digitChar d).isDigit = true := by
      interval_cases d <;> decide
    have hval : (Nat.digitChar d).toNat - 48 = d := by
      interval_cases d <;> decide
    simp only [List.map_cons, digitsAcc, hdig, if_true, hval, List.foldl_cons]
    exact ih _ (fun e he => hL e (by simp [he]))

theorem digitsAcc_natChars (n : Nat) : digitsAcc (natChars n) 0 = n := by
  by_cases h : n = 0
  · simp [natChars, h, digitsAcc]
  · have hlt := toDigitsRev_lt n n
    have h1 : digitsAcc (natChars n) 0
        = (toDigitsRev n n).reverse.foldl (fun a d => a * 10 + d) 0 := by
      simp only [natChars, h, if_false, List.map_reverse]
      rw [← List.map_reverse]
      exact digitsAcc_map _ 0 (by intro d hd; exact hlt d (List.mem_reverse.mp hd))
    rw [h1, foldl_toDigitsRev n n 0 le_rfl]
    simp

theorem digitChar_isDigit (d : Nat) (hd : d < 10) :
    (Nat.digitChar d).isDigit = true := by
  interval_cases d <;> decide

theorem natChars_all_digits (n : Nat) :
    ∀ c ∈ natChars n, c.isDigit = true := by
  intro c hc
  by_cases h : n = 0
  · simp [natChars, h] at hc
    simp [hc]
  · simp only [natChars, h, if_false, List.mem_map, List.mem_reverse] at hc
    obtain ⟨d, hd, rfl⟩ := hc
    exact digitChar_isDigit d (toDigitsRev_lt n n d hd)

theorem natChars_ne_nil (n : Nat) : natChars n ≠ [] := by
  by_cases h : n = 0
  · simp [natChars, h]
  · obtain ⟨m, rfl⟩ := Nat.exists_eq_succ_of_ne_zero h
    simp [natChars, toDigitsRev, h]

theorem isDigit_not_space (c : Char) (h : c.isDigit = true) :
    isSpaceChar c = false := by
  simp only [Char.isDigit, decide_eq_true_eq, Bool.and_eq_true] at h
  simp only [isSpaceChar, Bool.or_eq_false_iff, beq_eq_false_iff_ne, ne_eq]
  refine ⟨⟨⟨⟨⟨?_, ?_⟩, ?_⟩, ?_⟩, ?_⟩, ?_⟩ <;>
    (intro he; subst he; revert h; decide)

theorem isDigit_ne_minus (c : Char) (h : c.isDigit = true) : c ≠ '-' := by
  intro he; subst he; exact absurd h (by decide)

theorem isDigit_ne_plus (c : Char) (h : c.isDigit = true) : c ≠ '+' := by
  intro he; subst he; exact absurd h (by decide)

theorem atoi_natChars (m : Nat) : atoi (natChars m) = (m : Int) := by
  obtain ⟨c, cs, hcc⟩ := List.exists_cons_of_ne_nil (natChars_ne_nil m)
  have hdig : c.isDigit = true := natChars_all_digits m c (by rw [hcc]; simp)
  have hdrop : (natChars m).dropWhile isSpaceChar = natChars m := by
    rw [hcc, List.dropWhile_cons, isDigit_not_space c hdig]
    simp
  have hne1 : ¬((natChars m).head? = some '-') := by
    rw [hcc]; simp; exact isDigit_ne_minus c hdig
  have hne2 : ¬((natChars m).head? = some '+') := by
    rw [hcc]; simp; exact isDigit_ne_plus c hdig
  simp only [atoi, hdrop, hne1, if_false, hne2, digitsAcc_natChars]

/-- `atoi` inverts the decimal rendering: parsing back the `%d` image of
any integer recovers that integer. -/
theorem atoi_intRepr (n : Int) : atoi (intRepr n) = n := by
  by_cases hn : n < 0
  · have hsp : isSpaceChar '-' = false := by decide
    have h1 : intRepr n = '-' :: natChars n.natAbs := by simp [intRepr, hn]
    have h2 : atoi ('-' :: natChars n.natAbs) = -(n.natAbs : Int) := by
      simp only [atoi, List.dropWhile_cons, hsp, Bool.false_eq_true, if_false,
        List.head?_cons, Option.some.injEq, List.tail_cons, digitsAcc_natChars]
      simp
    rw [h1, h2]
    omega
  · have h1 : intRepr n = natChars n.toNat := by simp [intRepr, hn]
    rw [h1, atoi_natChars]
    omega

/-- Length bound for the decimal rendering: a value below `10 ^ k`
(with `k ≥ 1`) prints in at most `k` digit characters. -/
theorem toDigitsRev_length (fuel : Nat) :
    ∀ n k, n < 10 ^ k → (toDigitsRev fuel n).length ≤ k := by
  induction fuel with
  | zero => intro n k _; simp [toDigitsRev]
  | succ fuel ih =>
    intro n k hk
    by_cases h : n = 0
    · simp [toDigitsRev, h]
    · have hkpos : k ≠ 0 := by
        intro hk0; rw [hk0] at hk; simp at hk; omega
      obtain ⟨j, rfl⟩ := Nat.exists_eq_succ_of_ne_zero hkpos
      have hdiv : n / 10 < 10 ^ j := by
        rw [Nat.div_lt_iff_lt_mul (by omega)]
        calc n < 10 ^ (j + 1) := hk
        _ = 10 ^ j * 10 := by ring
      simp only [toDigitsRev, h, if_false, List.length_cons]
      exact Nat.succ_le_succ (ih (n / 10) j hdiv)

theorem natChars_length_le (n k : Nat) (hk : 1 ≤ k) (h : n < 10 ^ k) :
    (natChars n).length ≤ k := by
  by_cases h0 : n = 0
  · simp [natChars, h0]; omega
  · simp only [natChars, h0, if_false, List.length_map, List.length_reverse]
    exact toDigitsRev_length n n k h

/-! ### Helper lemmas about the actuator's command handler -/

theorem handle_status (s : ExecState) :
    handleCommand "STATUS".toList s
      = { s with i2cResp := (statusLine s).take 31 } := rfl

theorem handle_servo (s : ExecState) (n : Int) :
    handleCommand ("SERVO SET ".toList ++ intRepr n) s
      = { s with servoPos := constrain n 0 180,
                 i2cResp := "OK SERVO".toList } := by
  have htake : ("SERVO SET ".toList ++ intRepr n).take 9 = "SERVO SET".toList := by
    rw [List.take_append_eq_append_take]
    have h1 : ("SERVO SET ".toList).take 9 = "SERVO SET".toList := by decide
    have h2 : 9 - ("SERVO SET ".toList).length = 0 := by decide
    rw [h1, h2, List.take_zero, List.append_nil]
  have hdrop : ("SERVO SET ".toList ++ intRepr n).drop 10 = intRepr n := by
    have h3 : ("SERVO SET ".toList).length = 10 := by decide
    rw [← h3, List.drop_left]
  simp [handleCommand, htake, hdrop, atoi_intRepr]

theorem intRepr_length_le (n : Int) (h0 : 0 ≤ n) (h1 : n ≤ 999) :
    (intRepr n).length ≤ 3 := by
  have h2 : intRepr n = natChars n.toNat := by simp [intRepr]; omega
  rw [h2]
  exact natChars_length_le n.toNat 3 (by omega) (by omega)

/-- The `STATUS` reply survives `snprintf` truncation up to and including
the `STEPPER=` label whenever the servo angle prints in at most three
characters. -/
theorem statusLine_take (s : ExecState) (hlen : (intRepr s.servoPos).length ≤ 3) :
    ∃ t, (statusLine s).take 31
      = "SERVO=".toList ++ intRepr s.servoPos ++ " RELAY=".toList
        ++ (if s.relayState then "ON".toList else "OFF".toList)
        ++ " STEPPER=".toList ++ t := by
  have hA : statusLine s
      = ("SERVO=".toList ++ intRepr s.servoPos ++ " RELAY=".toList
          ++ (if s.relayState then "ON".toList else "OFF".toList)
          ++ " STEPPER=".toList) ++ intRepr s.stepperPos := by
    simp [statusLine, List.append_assoc]
  have hAlen : ("SERVO=".toList ++ intRepr s.servoPos ++ " RELAY=".toList
          ++ (if s.relayState then "ON".toList else "OFF".toList)
          ++ " STEPPER=".toList).length ≤ 31 := by
    simp only [List.length_append]
    have hrl : (if s.relayState then "ON".toList else "OFF".toList).length ≤ 3 := by
      cases s.relayState <;> decide
    have l1 : ("SERVO=".toList).length = 6 := by decide
    have l2 : (" RELAY=".toList).length = 7 := by decide
    have l3 : (" STEPPER=".toList).length = 9 := by decide
    omega
  refine ⟨(intRepr s.stepperPos).take
      (31 - ("SERVO=".toList ++ intRepr s.servoPos ++ " RELAY=".toList
          ++ (if s.relayState then "ON".toList else "OFF".toList)
          ++ " STEPPER=".toList).length), ?_⟩
  rw [hA, List.take_append_eq_append_take, List.take_of_length_le hAlen]

theorem recvAux_take (input : List Char) :
    ∀ i, recvAux input i = input.take (31 - i) := by
  induction input with
  | nil => intro i; simp [recvAux]
  | cons c rest ih =>
    intro i
    by_cases h : i < 31
    · have h31 : 31 - i = (31 - (i + 1)) + 1 := by omega
      simp only [recvAux, h, if_true, ih (i + 1), h31, List.take_succ_cons]
    · have h31 : 31 - i = 0 := by omega
      simp [recvAux, h, h31]

theorem usub32_eq (a b : Nat) (hb : b ≤ a) (ha : a < 2 ^ 32) :
    usub32 a b = a - b := by
  have hp : (2 : Nat) ^ 32 = 4294967296 := by norm_num
  unfold usub32
  rw [hp]
  omega

/-! ### The claims -/

/-- Claim C1, corrected.  The sensor-hub peer does transmit exactly 32
bytes on every request (zero-padded).  The actuator peer, however,
transmits `strlen(tmpResp) + 1` bytes — always at most 32, but not padded
to 32 (see `C1_counterexample`). -/
theorem C1_amended_frame_sizes :
    (∀ (d : SensorData) (now : Nat), (sensorFrame d now).length = 32)
    ∧ (∀ s : ExecState, (execFrame s).1.length ≤ 32) := by
  constructor
  · intro d now
    have hr : (sensorResp d now).length ≤ 31 := by
      simp [sensorResp, List.length_take]
    simp only [sensorFrame, List.length_append, List.length_replicate]
    omega
  · intro s
    cases hb : s.btnEvent
    · simp [execFrame, hb, List.length_append, List.length_take]
    · simp [execFrame, hb, List.length_append, List.length_take]
      omega

/-- Claim C1 counterexample: the actuator's very first response frame
(for the initial `"READY"` response, no button event) is 6 bytes long,
not the declared fixed 32 bytes. -/
theorem C1_counterexample : (execFrame initState).1.length ≠ 32 := by decide

/-- Claim C2: for `SERVO SET <n>` with `n` outside `[0, 180]`, the
stored servo position is the clamped value (`0` for `n < 0`, `180` for
`n > 180`), never the raw `n`, and a subsequent `STATUS` reports
`SERVO=` followed by the clamped value. -/
theorem C2_servo_set_clamped (s : ExecState) (n : Int) (h : n < 0 ∨ 180 < n) :
    (handleCommand ("SERVO SET ".toList ++ intRepr n) s).servoPos
        = (if n < 0 then 0 else 180)
    ∧ (handleCommand ("SERVO SET ".toList ++ intRepr n) s).servoPos ≠ n
    ∧ (handleCommand ("SERVO SET ".toList ++ intRepr n) s).i2cResp = "OK SERVO".toList
    ∧ ∃ t, (handleCommand "STATUS".toList
          (handleCommand ("SERVO SET ".toList ++ intRepr n) s)).i2cResp
        = "SERVO=".toList ++ intRepr (if n < 0 then 0 else 180) ++ " RELAY=".toList
          ++ (if s.relayState then "ON".toList else "OFF".toList)
          ++ " STEPPER=".toList ++ t := by
  have hcon : constrain n 0 180 = (if n < 0 then (0 : Int) else 180) := by
    rcases h with h | h <;> (unfold constrain; split_ifs <;> omega)
  rw [handle_servo, hcon]
  refine ⟨rfl, ?_, rfl, ?_⟩
  · show (if n < 0 then (0 : Int) else 180) ≠ n
    rcases h with h | h <;> (split_ifs <;> omega)
  · rw [handle_status]
    obtain ⟨t, ht⟩ := statusLine_take
      { s with servoPos := (if n < 0 then (0 : Int) else 180),
               i2cResp := "OK SERVO".toList }
      (by show (intRepr (if n < 0 then (0 : Int) else 180)).length ≤ 3
          split_ifs <;> exact intRepr_length_le _ (by omega) (by omega))
    exact ⟨t, ht⟩

/-- Claim C2 witness: `SERVO SET 200` clamps to 180, not 200. -/
theorem C2_witness :
    (180 : Int) < 200
    ∧ (handleCommand ("SERVO SET ".toList ++ intRepr 200) initState).servoPos = 180
    ∧ (handleCommand ("SERVO SET ".toList ++ intRepr 200) initState).servoPos ≠ 200 := by
  have h := C2_servo_set_clamped initState 200 (Or.inr (by decide))
  refine ⟨by decide, ?_, h.2.1⟩
  have h1 := h.1
  norm_num at h1
  exact h1

/-- Claim C3: the sensor-hub reply is the ASCII string
`T=<f> H=<f> P=<int> C=<int>` (whenever it fits the 32-byte buffer), and
its `C` field is `-1` when no clap has occurred (`lastClapMs = 0`), `-1`
when at least 1000 seconds have elapsed, and otherwise the whole number
of elapsed seconds since the last clap. -/
theorem C3_sensor_reply (d : SensorData) (now : Nat)
    (h1 : d.lastClapMs ≤ now) (h2 : now < 2 ^ 32)
    (h3 : (sensorLine d now).length ≤ 31) :
    sensorResp d now
      = "T=".toList ++ fmt1 d.temp ++ " H=".toList ++ fmt1 d.hum
        ++ " P=".toList ++ intRepr d.photo
        ++ " C=".toList ++ intRepr (clapSecOf now d.lastClapMs)
    ∧ (d.lastClapMs = 0 → clapSecOf now d.lastClapMs = -1)
    ∧ (0 < d.lastClapMs → 1000 * 1000 ≤ now - d.lastClapMs →
        clapSecOf now d.lastClapMs = -1)
    ∧ (0 < d.lastClapMs → now - d.lastClapMs < 1000 * 1000 →
        clapSecOf now d.lastClapMs = ((now - d.lastClapMs) / 1000 : Nat)) := by
  refine ⟨?_, ?_, ?_, ?_⟩
  · rw [sensorResp, List.take_of_length_le h3]
    rfl
  · intro h0
    simp [clapSecOf, h0]
  · intro h0 hst
    have hu : usub32 now d.lastClapMs = now - d.lastClapMs :=
      usub32_eq now d.lastClapMs h1 h2
    have hc : clapSecOf now d.lastClapMs
        = if 1000 ≤ usub32 now d.lastClapMs / 1000 then (-1 : Int)
          else ((usub32 now d.lastClapMs / 1000 : Nat) : Int) := by
      unfold clapSecOf
      rw [if_pos h0]
    rw [hc, hu, if_pos (by omega)]
  · intro h0 hst
    have hu : usub32 now d.lastClapMs = now - d.lastClapMs :=
      usub32_eq now d.lastClapMs h1 h2
    have hc : clapSecOf now d.lastClapMs
        = if 1000 ≤ usub32 now d.lastClapMs / 1000 then (-1 : Int)
          else ((usub32 now d.lastClapMs / 1000 : Nat) : Int) := by
      unfold clapSecOf
      rw [if_pos h0]
    rw [hc, hu, if_neg (by omega)]

theorem fmt1_234 : fmt1 (CFloat.val (117 / 5)) = "23.4".toList := by
  have hr : round ((117 / 5 : ℚ) * 10) = 234 := by norm_num [round_eq]
  simp only [fmt1, hr]
  decide

theorem fmt1_451 : fmt1 (CFloat.val (451 / 10)) = "45.1".toList := by
  have hr : round ((451 / 10 : ℚ) * 10) = 451 := by norm_num [round_eq]
  simp only [fmt1, hr]
  decide

theorem sensorLine_example :
    sensorLine ⟨CFloat.val (117 / 5), CFloat.val (451 / 10), 1023, 5000⟩ 12000
      = "T=23.4 H=45.1 P=1023 C=7".toList := by
  simp only [sensorLine]
  rw [fmt1_234, fmt1_451]
  decide

/-- Claim C3 witness: at `T = 23.4 °C`, `H = 45.1 %`, `P = 1023`, a clap
at millisecond 5000 and a request at millisecond 12000 produce the reply
`T=23.4 H=45.1 P=1023 C=7`. -/
theorem C3_witness :
    (5000 : Nat) ≤ 12000
    ∧ sensorResp ⟨CFloat.val (117 / 5), CFloat.val (451 / 10), 1023, 5000⟩ 12000
        = "T=23.4 H=45.1 P=1023 C=7".toList := by
  have h := (C3_sensor_reply ⟨CFloat.val (117 / 5), CFloat.val (451 / 10), 1023, 5000⟩
      12000 (by decide) (by decide) (by rw [sensorLine_example]; decide)).1
  refine ⟨by decide, ?_⟩
  rw [h]
  exact sensorLine_example

/-- Claim C4, corrected.  The button-press flag is delivered at most
once: a pending flag is cleared by the read that surfaces it, two falling
edges before a read coalesce (`pressCycle` is idempotent), a read with no
pending flag appends nothing, and the response read right after any read
carries no appended marker.  However, the marker text is appended only
truncated to the space left in the 32-byte buffer: the full
` +BTN PRESSED` appears only when the stored response has at most
18 characters (see `C4_counterexample`). -/
theorem C4_btn_amended (s : ExecState) :
    (s.btnEvent = true →
      (execFrame s).2.btnEvent = false
      ∧ (execFrame s).1
          = s.i2cResp.take 31
            ++ " +BTN PRESSED".toList.take (32 - (s.i2cResp.take 31).length - 1)
            ++ [Char.ofNat 0]
      ∧ (s.i2cResp.length ≤ 18 →
          (execFrame s).1 = s.i2cResp ++ " +BTN PRESSED".toList ++ [Char.ofNat 0]))
    ∧ (s.btnEvent = false →
        (execFrame s).1 = s.i2cResp.take 31 ++ [Char.ofNat 0]
        ∧ (execFrame s).2 = s)
    ∧ pressCycle (pressCycle s) = pressCycle s
    ∧ (execFrame ((execFrame s).2)).1
        = ((execFrame s).2).i2cResp.take 31 ++ [Char.ofNat 0] := by
  refine ⟨?_, ?_, ?_, ?_⟩
  · intro hb
    have e1 : (execFrame s).1
        = s.i2cResp.take 31
          ++ " +BTN PRESSED".toList.take (32 - (s.i2cResp.take 31).length - 1)
          ++ [Char.ofNat 0] := by
      simp [execFrame, hb, List.append_assoc]
    refine ⟨by simp [execFrame, hb], e1, ?_⟩
    intro hlen
    have h31 : s.i2cResp.take 31 = s.i2cResp :=
      List.take_of_length_le (by omega)
    have hm : (" +BTN PRESSED".toList).length = 13 := by decide
    have hfit : (" +BTN PRESSED".toList).length ≤ 32 - s.i2cResp.length - 1 := by
      omega
    rw [e1, h31, List.take_of_length_le hfit]
  · intro hb
    exact ⟨by simp [execFrame, hb], by simp [execFrame, hb]⟩
  · simp [pressCycle, handleButton]
  · cases hb : s.btnEvent <;> simp [execFrame, hb]

/-- Claim C4 witness: with a pending button event and the short response
`OK SERVO`, the read returns `OK SERVO +BTN PRESSED` (full marker) and
clears the flag. -/
theorem C4_witness :
    (execFrame ⟨90, 0, false, true, "OK SERVO".toList⟩).1
      = "OK SERVO +BTN PRESSED".toList ++ [Char.ofNat 0]
    ∧ (execFrame ⟨90, 0, false, true, "OK SERVO".toList⟩).2.btnEvent = false := by
  have h := (C4_btn_amended ⟨90, 0, false, true, "OK SERVO".toList⟩).1 rfl
  refine ⟨?_, h.1⟩
  rw [h.2.2 (by decide)]
  decide

/-- Claim C4 counterexample: after `STATUS` in the initial state the
response is 28 characters, so a pending button event is surfaced as the
truncated ` +B` — the marker ` +BTN PRESSED` is not appended to that
response, contradicting the claim as stated. -/
theorem C4_counterexample :
    (execFrame (pressCycle (handleCommand "STATUS".toList initState))).1
      = "SERVO=90 RELAY=OFF STEPPER=0 +B".toList ++ [Char.ofNat 0]
    ∧ containsSub " +BTN PRESSED".toList
        (execFrame (pressCycle (handleCommand "STATUS".toList initState))).1 = false := by
  decide

/-- Claim C5: for `0 ≤ n ≤ 180`, `SERVO SET n` answers `OK SERVO`,
stores exactly `n`, and a subsequent `STATUS` reports
`SERVO=n RELAY=<ON/OFF> STEPPER=...` with the `SERVO` field equal to
`n`. -/
theorem C5_servo_set_in_range_status (s : ExecState) (n : Int)
    (h0 : 0 ≤ n) (h1 : n ≤ 180) :
    (handleCommand ("SERVO SET ".toList ++ intRepr n) s).i2cResp = "OK SERVO".toList
    ∧ (handleCommand ("SERVO SET ".toList ++ intRepr n) s).servoPos = n
    ∧ ∃ t, (handleCommand "STATUS".toList
          (handleCommand ("SERVO SET ".toList ++ intRepr n) s)).i2cResp
        = "SERVO=".toList ++ intRepr n ++ " RELAY=".toList
          ++ (if s.relayState then "ON".toList else "OFF".toList)
          ++ " STEPPER=".toList ++ t := by
  have hcon : constrain n 0 180 = n := by
    unfold constrain; split_ifs <;> omega
  rw [handle_servo, hcon]
  refine ⟨rfl, rfl, ?_⟩
  rw [handle_status]
  obtain ⟨t, ht⟩ := statusLine_take { s with servoPos := n, i2cResp := "OK SERVO".toList }
    (intRepr_length_le n h0 (by omega))
  exact ⟨t, ht⟩

/-- Claim C5 witness: `SERVO SET 45` stores 45 and `STATUS` reports
`SERVO=45 …`. -/
theorem C5_witness :
    (0 : Int) ≤ 45 ∧ (45 : Int) ≤ 180
    ∧ (handleCommand ("SERVO SET ".toList ++ intRepr 45) initState).i2cResp
        = "OK SERVO".toList
    ∧ (handleCommand ("SERVO SET ".toList ++ intRepr 45) initState).servoPos = 45
    ∧ ∃ t, (handleCommand "STATUS".toList
          (handleCommand ("SERVO SET ".toList ++ intRepr 45) initState)).i2cResp
        = "SERVO=".toList ++ intRepr 45 ++ " RELAY=".toList
          ++ (if initState.relayState then "ON".toList else "OFF".toList)
          ++ " STEPPER=".toList ++ t := by
  have h := C5_servo_set_in_range_status initState 45 (by decide) (by decide)
  exact ⟨by decide, by decide, h.1, h.2.1, h.2.2⟩

/-- Claim C6: a command matching none of the five known verbs gets the
response `ERR CMD` and leaves servo, stepper and relay state unchanged. -/
theorem C6_unknown_verb (s : ExecState) (cmd : List Char)
    (h1 : cmd.take 9 ≠ "SERVO SET".toList)
    (h2 : cmd.take 12 ≠ "STEPPER MOVE".toList)
    (h3 : cmd ≠ "RELAY ON".toList)
    (h4 : cmd ≠ "RELAY OFF".toList)
    (h5 : cmd ≠ "STATUS".toList) :
    (handleCommand cmd s).i2cResp = "ERR CMD".toList
    ∧ (handleCommand cmd s).servoPos = s.servoPos
    ∧ (handleCommand cmd s).stepperPos = s.stepperPos
    ∧ (handleCommand cmd s).relayState = s.relayState := by
  simp only [handleCommand]
  rw [if_neg h1, if_neg h2, if_neg h3, if_neg h4, if_neg h5]
  exact ⟨rfl, rfl, rfl, rfl⟩

/-- Claim C6 witness: the unknown command `HELLO` yields `ERR CMD` and
leaves the servo position at its previous value. -/
theorem C6_witness :
    (handleCommand "HELLO".toList initState).i2cResp = "ERR CMD".toList
    ∧ (handleCommand "HELLO".toList initState).servoPos = 90 := by
  have h := C6_unknown_verb initState "HELLO".toList
    (by decide) (by decide) (by decide) (by decide) (by decide)
  exact ⟨h.1, by rw [h.2.1]; rfl⟩

/-- Claim C7: `RELAY ON` then `RELAY OFF` (from any state) leaves the
relay off and produces the acknowledgements `OK RELAY ON` then
`OK RELAY OFF`, in that order. -/
theorem C7_relay_round_trip (s : ExecState) :
    (handleCommand "RELAY ON".toList s).i2cResp = "OK RELAY ON".toList
    ∧ (handleCommand "RELAY OFF".toList
        (handleCommand "RELAY ON".toList s)).i2cResp = "OK RELAY OFF".toList
    ∧ (handleCommand "RELAY OFF".toList
        (handleCommand "RELAY ON".toList s)).relayState = false :=
  ⟨rfl, rfl, rfl⟩

/-- Claim C8: the receive handler stores at most 31 bytes (the first 31
of the incoming data) and writes the terminating NUL at an index below
32, inside the 32-byte buffer. -/
theorem C8_receive_bounded (input : List Char) :
    (onI2CReceive input).1 = input.take 31
    ∧ (onI2CReceive input).1.length ≤ 31
    ∧ (onI2CReceive input).2 = min input.length 31
    ∧ (onI2CReceive input).2 < 32 := by
  refine ⟨?_, ?_, ?_, ?_⟩
  · simp only [onI2CReceive, recvAux_take, Nat.sub_zero]
  · simp only [onI2CReceive, recvAux_take, Nat.sub_zero, List.length_take]
    omega
  · simp only [onI2CReceive, recvAux_take, Nat.sub_zero, List.length_take]
    omega
  · simp only [onI2CReceive, recvAux_take, Nat.sub_zero, List.length_take]
    omega

/-- Claim C9: before any command, the actuator state is
`READY`/90/0/relay-off/no-event; the first `STATUS` reports
`SERVO=90 RELAY=OFF STEPPER=0`, and a response read before any command
returns `READY`. -/
theorem C9_initial_state :
    initState.i2cResp = "READY".toList
    ∧ initState.servoPos = 90
    ∧ initState.stepperPos = 0
    ∧ initState.relayState = false
    ∧ initState.btnEvent = false
    ∧ (handleCommand "STATUS".toList initState).i2cResp
        = "SERVO=90 RELAY=OFF STEPPER=0".toList
    ∧ (execFrame initState).1 = "READY".toList ++ [Char.ofNat 0] := by
  refine ⟨rfl, rfl, rfl, rfl, rfl, ?_, rfl⟩
  decide

/-- Claim C10: one `SensorTask` iteration updates temperature, humidity
and light level only when both DHT readings are non-NaN; when either is
NaN all three shared fields (including the light level) keep their
previous values. -/
theorem C10_sensor_frame_effect (s : SensorData) (h t : CFloat) (p : Int) :
    ((h.isNaN = true ∨ t.isNaN = true) → sensorTaskIter s h t p = s)
    ∧ (h.isNaN = false → t.isNaN = false →
        sensorTaskIter s h t p
          = { s with temp := t, hum := h, photo := p }) := by
  constructor
  · intro hnan
    rcases hnan with h1 | h1 <;> simp [sensorTaskIter, h1]
  · intro hh ht
    simp [sensorTaskIter, hh, ht]

/-- Claim C10 witness: a NaN humidity reading leaves all shared fields,
including the light level, unchanged. -/
theorem C10_witness :
    CFloat.nan.isNaN = true
    ∧ sensorTaskIter ⟨CFloat.val 20, CFloat.val 50, 100, 0⟩ CFloat.nan (CFloat.val 21) 7
        = ⟨CFloat.val 20, CFloat.val 50, 100, 0⟩ :=
  ⟨rfl, (C10_sensor_frame_effect ⟨CFloat.val 20, CFloat.val 50, 100, 0⟩
      CFloat.nan (CFloat.val 21) 7).1 (Or.inl rfl)⟩

end ControlHub
